import Mathlib

/-!
Verification of the scalar-damage integration engine of the neml repository.

The repository source under review ships the header damage.h, which declares
the class hierarchy (NEMLDamagedModel_sd, NEMLScalarDamagedModel_sd,
CombinedDamageModel_sd, ClassicalCreepDamageModel_sd,
NEMLStandardScalarDamagedModel_sd, NEMLPowerLawDamagedModel_sd,
NEMLExponentialWorkDamagedModel_sd) together with documentation comments
stating the governing formulas.  The corresponding implementation file is not
part of the reviewed source, so every function body below is modelled from the
specification (and the header documentation comments), as indicated on each
definition.  Following the design notes of the specification, the deep
inheritance chain is flattened: a damage-rate law is a record of four pure
evaluators, the Newton engine holds such a record, and the strain-driven
helper dep is a record field shared by the laws that need it.

Real numbers stand for the C++ doubles, vectors of six components for the
Mandel-notation stress and strain arrays, and lists for history vectors.
-/

namespace neml

/-- Scalar damage trial state, directly from the declaration of SDTrialState
in damage.h: strain, temperature and time at both ends of the step, stress,
energy, plastic work, damage and base history at the start of the step. -/
structure SDTrialState where
  e_np1 : Fin 6 → ℝ
  e_n : Fin 6 → ℝ
  T_np1 : ℝ
  T_n : ℝ
  t_np1 : ℝ
  t_n : ℝ
  u_n : ℝ
  p_n : ℝ
  s_n : Fin 6 → ℝ
  w_n : ℝ
  h_n : List ℝ

/-- Modelled from the spec: the damage-rate law interface, a pure evaluator
for the damage function together with its three analytic partial derivatives
with respect to damage, strain and stress, all taken at the same arguments
(d_np1, d_n, e_np1, e_n, s_np1, s_n, T_np1, T_n, t_np1, t_n).  Per the header
documentation the damage evaluator returns d_n plus the increment of the
step. -/
structure ScalarDamageLaw where
  damage : ℝ → ℝ → (Fin 6 → ℝ) → (Fin 6 → ℝ) → (Fin 6 → ℝ) → (Fin 6 → ℝ) →
    ℝ → ℝ → ℝ → ℝ → ℝ
  ddamage_dd : ℝ → ℝ → (Fin 6 → ℝ) → (Fin 6 → ℝ) → (Fin 6 → ℝ) → (Fin 6 → ℝ) →
    ℝ → ℝ → ℝ → ℝ → ℝ
  ddamage_de : ℝ → ℝ → (Fin 6 → ℝ) → (Fin 6 → ℝ) → (Fin 6 → ℝ) → (Fin 6 → ℝ) →
    ℝ → ℝ → ℝ → ℝ → Fin 6 → ℝ
  ddamage_ds : ℝ → ℝ → (Fin 6 → ℝ) → (Fin 6 → ℝ) → (Fin 6 → ℝ) → (Fin 6 → ℝ) →
    ℝ → ℝ → ℝ → ℝ → Fin 6 → ℝ

/-- Modelled from the spec: the base constitutive model, an abstract
collaborator.  It exposes its history count, its history initializer (with the
contract that the initializer fills exactly that many slots), and its stress
update, which maps the step data to the updated undamaged stress. -/
structure BaseModel where
  nhist : ℕ
  init_hist : List ℝ
  init_hist_length : init_hist.length = nhist
  update_stress : (Fin 6 → ℝ) → (Fin 6 → ℝ) → ℝ → ℝ → ℝ → ℝ →
    (Fin 6 → ℝ) → List ℝ → (Fin 6 → ℝ)

/-- Modelled from the spec: the generic damaged-model facade, holding a base
model together with the damage portion of the history layout (its size and its
initial values, with the contract that they agree). -/
structure NEMLDamagedModel_sd where
  base_ : BaseModel
  ndamage : ℕ
  init_damage : List ℝ
  init_damage_length : init_damage.length = ndamage

/-- Modelled from the spec, and the header comment on nhist: the number of
history variables equals the base history count plus the number of damage
variables. -/
def NEMLDamagedModel_sd.nhist (m : NEMLDamagedModel_sd) : ℕ :=
  m.base_.nhist + m.ndamage

/-- Modelled from the spec: init_hist fills the base slice via the base model
initializer and then the damage slice via init_damage. -/
def NEMLDamagedModel_sd.init_hist (m : NEMLDamagedModel_sd) : List ℝ :=
  m.base_.init_hist ++ m.init_damage

/-- The scalar-damage Newton engine: a base model, a damage-rate law, the
solver tolerance, the iteration cap and the verbosity flag, mirroring the
constructor parameters of NEMLScalarDamagedModel_sd in damage.h (the law
record replaces the virtual damage methods, per the flattening prescribed by
the design notes of the spec). -/
structure NEMLScalarDamagedModel_sd where
  base_ : BaseModel
  law : ScalarDamageLaw
  tol_ : ℝ
  miter_ : ℕ
  verbose_ : Bool

/-- Modelled from the spec, and the header comment on ndamage: a scalar
damaged model has exactly one damage variable. -/
def NEMLScalarDamagedModel_sd.ndamage (_ : NEMLScalarDamagedModel_sd) : ℕ := 1

/-- Modelled from the spec, and the header comment on init_damage: the damage
slot is initialized to zero. -/
def NEMLScalarDamagedModel_sd.init_damage (_ : NEMLScalarDamagedModel_sd) :
    List ℝ := [0]

/-- The facade view of a scalar damaged model: one damage variable,
initialized to zero. -/
def NEMLScalarDamagedModel_sd.toDamagedModel (m : NEMLScalarDamagedModel_sd) :
    NEMLDamagedModel_sd :=
  { base_ := m.base_
    ndamage := 1
    init_damage := [0]
    init_damage_length := rfl }

/-- History count of a scalar damaged model, through the facade. -/
def NEMLScalarDamagedModel_sd.nhist (m : NEMLScalarDamagedModel_sd) : ℕ :=
  m.toDamagedModel.nhist

/-- History initialization of a scalar damaged model, through the facade. -/
def NEMLScalarDamagedModel_sd.init_hist (m : NEMLScalarDamagedModel_sd) :
    List ℝ :=
  m.toDamagedModel.init_hist

/-- Modelled from the spec: the Newton solve has a single unknown, the
updated damage value. -/
def NEMLScalarDamagedModel_sd.nparams (_ : NEMLScalarDamagedModel_sd) : ℕ := 1

/-- Modelled from the spec: init_x seeds the Newton iterate with the damage
value at the start of the step. -/
def NEMLScalarDamagedModel_sd.init_x (_ : NEMLScalarDamagedModel_sd)
    (ts : SDTrialState) : ℝ := ts.w_n

/-- Modelled from the spec: make_trial_state packs the caller-supplied step
data into the immutable trial-state snapshot; the damage value is the last
entry of the incoming history vector, after the base portion of size
base nhist. -/
def NEMLScalarDamagedModel_sd.make_trial_state (m : NEMLScalarDamagedModel_sd)
    (e_np1 e_n : Fin 6 → ℝ) (T_np1 T_n t_np1 t_n : ℝ)
    (s_n : Fin 6 → ℝ) (h_n : List ℝ) (u_n p_n : ℝ) : SDTrialState :=
  { e_np1 := e_np1, e_n := e_n, T_np1 := T_np1, T_n := T_n
    t_np1 := t_np1, t_n := t_n, u_n := u_n, p_n := p_n
    s_n := s_n, w_n := (h_n.drop m.base_.nhist).headI
    h_n := h_n.take m.base_.nhist }

/-- Modelled from the spec: the equivalent (von Mises) stress measure se,
shared by the classical creep, power-law and exponential-work rate laws; a
temperature-independent scalar invariant of the Mandel-notation stress
vector. -/
noncomputable def se (s : Fin 6 → ℝ) : ℝ :=
  Real.sqrt (((s 0 - s 1) ^ 2 + (s 1 - s 2) ^ 2 + (s 2 - s 0) ^ 2 +
    6 * ((s 3) ^ 2 + (s 4) ^ 2 + (s 5) ^ 2)) / 2)

/-- Classical Hayhurst-Leckie-Rabotnov-Kachanov creep damage: the interpolated
material parameters A, xi and phi, each an abstract scalar function of
temperature. -/
structure ClassicalCreepDamageModel_sd where
  A_ : ℝ → ℝ
  xi_ : ℝ → ℝ
  phi_ : ℝ → ℝ

/-- Modelled from the spec, and the header comment on the damage function of
ClassicalCreepDamageModel_sd: d_np1 = d_n + (se / A) ^ xi * (1 - d_np1) ^ (-phi) * dt
with A, xi, phi evaluated at T_np1 and se the equivalent stress of s_np1. -/
noncomputable def ClassicalCreepDamageModel_sd.damage
    (m : ClassicalCreepDamageModel_sd) (d_np1 d_n : ℝ)
    (_e_np1 _e_n : Fin 6 → ℝ) (s_np1 _s_n : Fin 6 → ℝ)
    (T_np1 _T_n t_np1 t_n : ℝ) : ℝ :=
  d_n + (se s_np1 / m.A_ T_np1) ^ (m.xi_ T_np1) *
    (1 - d_np1) ^ (-(m.phi_ T_np1)) * (t_np1 - t_n)

/-- Modelled from the spec: the strain-driven base of the power-law and
exponential-work laws.  It carries the rate function f of
(s_np1, d_np1, T_np1) with its two partials, and the inelastic-strain
increment extractor dep of (s_np1, s_n, e_np1, e_n, T_np1); the body of dep is
absent from the reviewed source and the spec leaves it abstract, so it is a
record field here. -/
structure NEMLStandardScalarDamagedModel_sd where
  f : (Fin 6 → ℝ) → ℝ → ℝ → ℝ
  df_ds : (Fin 6 → ℝ) → ℝ → ℝ → Fin 6 → ℝ
  df_dd : (Fin 6 → ℝ) → ℝ → ℝ → ℝ
  dep : (Fin 6 → ℝ) → (Fin 6 → ℝ) → (Fin 6 → ℝ) → (Fin 6 → ℝ) → ℝ → ℝ

/-- Modelled from the spec: the strain-driven damage update,
d_np1 = d_n + f(s_np1, d_np1, T_np1) * dep(s_np1, s_n, e_np1, e_n, T_np1). -/
def NEMLStandardScalarDamagedModel_sd.damage
    (m : NEMLStandardScalarDamagedModel_sd) (d_np1 d_n : ℝ)
    (e_np1 e_n : Fin 6 → ℝ) (s_np1 s_n : Fin 6 → ℝ)
    (T_np1 _T_n _t_np1 _t_n : ℝ) : ℝ :=
  d_n + m.f s_np1 d_np1 T_np1 * m.dep s_np1 s_n e_np1 e_n T_np1

/-- Power-law damage: interpolated parameters A and a, plus the shared
inelastic-strain increment extractor of the strain-driven base. -/
structure NEMLPowerLawDamagedModel_sd where
  A_ : ℝ → ℝ
  a_ : ℝ → ℝ
  dep : (Fin 6 → ℝ) → (Fin 6 → ℝ) → (Fin 6 → ℝ) → (Fin 6 → ℝ) → ℝ → ℝ

/-- Modelled from the spec, and the header comment on f of
NEMLPowerLawDamagedModel_sd: f = A * s_eq ^ a with A and a evaluated at
T_np1. -/
noncomputable def NEMLPowerLawDamagedModel_sd.f
    (m : NEMLPowerLawDamagedModel_sd) (s_np1 : Fin 6 → ℝ)
    (_d_np1 T_np1 : ℝ) : ℝ :=
  m.A_ T_np1 * (se s_np1) ^ (m.a_ T_np1)

/-- The strain-driven base instantiated with the power-law rate function
(the two partials of f are not used by the claims under verification and are
left as the zero functions of the record). -/
noncomputable def NEMLPowerLawDamagedModel_sd.toStandard
    (m : NEMLPowerLawDamagedModel_sd) : NEMLStandardScalarDamagedModel_sd :=
  { f := m.f
    df_ds := fun _ _ _ _ => 0
    df_dd := fun _ _ _ => 0
    dep := m.dep }

/-- The damage update of the power-law model, through the strain-driven
base. -/
noncomputable def NEMLPowerLawDamagedModel_sd.damage
    (m : NEMLPowerLawDamagedModel_sd) (d_np1 d_n : ℝ)
    (e_np1 e_n : Fin 6 → ℝ) (s_np1 s_n : Fin 6 → ℝ)
    (T_np1 T_n t_np1 t_n : ℝ) : ℝ :=
  m.toStandard.damage d_np1 d_n e_np1 e_n s_np1 s_n T_np1 T_n t_np1 t_n

/-- Exponential work damage: interpolated parameters W0, k0 and af, plus the
shared inelastic-strain increment extractor of the strain-driven base. -/
structure NEMLExponentialWorkDamagedModel_sd where
  W0_ : ℝ → ℝ
  k0_ : ℝ → ℝ
  af_ : ℝ → ℝ
  dep : (Fin 6 → ℝ) → (Fin 6 → ℝ) → (Fin 6 → ℝ) → (Fin 6 → ℝ) → ℝ → ℝ

/-- Modelled from the spec, and the header comment on f of
NEMLExponentialWorkDamagedModel_sd: f = (d + k0) ^ af / W0 * s_eq with W0, k0
and af evaluated at T_np1. -/
noncomputable def NEMLExponentialWorkDamagedModel_sd.f
    (m : NEMLExponentialWorkDamagedModel_sd) (s_np1 : Fin 6 → ℝ)
    (d_np1 T_np1 : ℝ) : ℝ :=
  (d_np1 + m.k0_ T_np1) ^ (m.af_ T_np1) / m.W0_ T_np1 * se s_np1

/-- The strain-driven base instantiated with the exponential-work rate
function. -/
noncomputable def NEMLExponentialWorkDamagedModel_sd.toStandard
    (m : NEMLExponentialWorkDamagedModel_sd) :
    NEMLStandardScalarDamagedModel_sd :=
  { f := m.f
    df_ds := fun _ _ _ _ => 0
    df_dd := fun _ _ _ => 0
    dep := m.dep }

/-- The damage update of the exponential-work model, through the
strain-driven base. -/
noncomputable def NEMLExponentialWorkDamagedModel_sd.damage
    (m : NEMLExponentialWorkDamagedModel_sd) (d_np1 d_n : ℝ)
    (e_np1 e_n : Fin 6 → ℝ) (s_np1 s_n : Fin 6 → ℝ)
    (T_np1 T_n t_np1 t_n : ℝ) : ℝ :=
  m.toStandard.damage d_np1 d_n e_np1 e_n s_np1 s_n T_np1 T_n t_np1 t_n

/-- Modelled from the spec: the combined damage model superposes the
increments and the partials of its constituent laws (each constituent damage
evaluator returns d_n plus its own increment, so the increments are the
evaluations minus d_n); the result is again a damage-rate law with the same
interface, so it can be nested. -/
def CombinedDamageModel_sd (models_ : List ScalarDamageLaw) : ScalarDamageLaw :=
  { damage := fun d_np1 d_n e_np1 e_n s_np1 s_n T_np1 T_n t_np1 t_n =>
      d_n + (models_.map (fun mi =>
        mi.damage d_np1 d_n e_np1 e_n s_np1 s_n T_np1 T_n t_np1 t_n - d_n)).sum
    ddamage_dd := fun d_np1 d_n e_np1 e_n s_np1 s_n T_np1 T_n t_np1 t_n =>
      (models_.map (fun mi =>
        mi.ddamage_dd d_np1 d_n e_np1 e_n s_np1 s_n T_np1 T_n t_np1 t_n)).sum
    ddamage_de := fun d_np1 d_n e_np1 e_n s_np1 s_n T_np1 T_n t_np1 t_n i =>
      (models_.map (fun mi =>
        mi.ddamage_de d_np1 d_n e_np1 e_n s_np1 s_n T_np1 T_n t_np1 t_n i)).sum
    ddamage_ds := fun d_np1 d_n e_np1 e_n s_np1 s_n T_np1 T_n t_np1 t_n i =>
      (models_.map (fun mi =>
        mi.ddamage_ds d_np1 d_n e_np1 e_n s_np1 s_n T_np1 T_n t_np1 t_n i)).sum }

/-- One step of the generic one-unknown Newton iteration: subtract the
residual divided by the Jacobian. -/
def newton_iter {α : Type} [LinearOrderedField α] (RJfun : α → α × α)
    (x : α) : α :=
  x - (RJfun x).1 / (RJfun x).2

/-- Modelled from the spec: the generic bounded Newton loop.  It succeeds as
soon as the absolute residual drops below the tolerance, takes a Newton step
otherwise, and reports failure (none) once the iteration cap is exhausted
without meeting the tolerance. -/
def newton_solve {α : Type} [LinearOrderedField α] (RJfun : α → α × α)
    (tol : α) : ℕ → α → Option α
  | 0, x => if |(RJfun x).1| < tol then some x else none
  | k + 1, x =>
      if |(RJfun x).1| < tol then some x
      else newton_solve RJfun tol k (newton_iter RJfun x)

/-- The undamaged stress produced by the base model for a trial state: the
base model invoked on the same strain, temperature and time history with the
step-start stress and base history of the snapshot. -/
noncomputable def NEMLScalarDamagedModel_sd.base_stress
    (m : NEMLScalarDamagedModel_sd) (ts : SDTrialState) : Fin 6 → ℝ :=
  m.base_.update_stress ts.e_np1 ts.e_n ts.T_np1 ts.T_n ts.t_np1 ts.t_n
    ts.s_n ts.h_n

/-- Modelled from the spec: RJ at candidate damage x.  The base model is
invoked on the trial state, its undamaged stress is rescaled by the
damage-effective-stress transformation (division by 1 - x), the rate law is
evaluated at that effective stress, the residual is the candidate minus the
law evaluation (that is, x - d_n - increment), and the Jacobian is one minus
the total derivative of the increment with respect to x, combining the direct
ddamage_dd term with the ddamage_ds terms carried through the derivative of
the effective stress with respect to x. -/
noncomputable def NEMLScalarDamagedModel_sd.RJ
    (m : NEMLScalarDamagedModel_sd) (ts : SDTrialState) (x : ℝ) : ℝ × ℝ :=
  let sp := m.base_stress ts
  let s_eff : Fin 6 → ℝ := fun i => sp i / (1 - x)
  let R := x - m.law.damage x ts.w_n ts.e_np1 ts.e_n s_eff ts.s_n
    ts.T_np1 ts.T_n ts.t_np1 ts.t_n
  let wd := m.law.ddamage_dd x ts.w_n ts.e_np1 ts.e_n s_eff ts.s_n
    ts.T_np1 ts.T_n ts.t_np1 ts.t_n
  let wds := m.law.ddamage_ds x ts.w_n ts.e_np1 ts.e_n s_eff ts.s_n
    ts.T_np1 ts.T_n ts.t_np1 ts.t_n
  let J := 1 - (wd + ∑ i, wds i * (sp i / (1 - x) ^ 2))
  (R, J)

/-- Modelled from the spec: the damage solve inside update_sd.  The Newton
loop runs on the residual and Jacobian of RJ, seeded by init_x with the
step-start damage, bounded by the iteration cap, and returns the converged
damage value or none on non-convergence; no best-effort value is ever
returned as a success. -/
noncomputable def NEMLScalarDamagedModel_sd.update_sd
    (m : NEMLScalarDamagedModel_sd) (ts : SDTrialState) : Option ℝ :=
  newton_solve (fun x => m.RJ ts x) m.tol_ m.miter_ (m.init_x ts)

/-- Modelled from the spec: the consistent algorithmic tangent assembled
after convergence.  The linearized residual equation is solved for the total
derivative of the converged damage with respect to strain (the denominator Rd
is the residual Jacobian in terms of the converged effective stress s_np1),
and that sensitivity is propagated through the effective-stress scaling and
combined with the base tangent A_prime. -/
noncomputable def NEMLScalarDamagedModel_sd.tangent_
    (m : NEMLScalarDamagedModel_sd) (e_np1 e_n : Fin 6 → ℝ)
    (s_np1 s_n : Fin 6 → ℝ) (T_np1 T_n t_np1 t_n : ℝ)
    (w_np1 w_n : ℝ) (A_prime : Fin 6 → Fin 6 → ℝ) : Fin 6 → Fin 6 → ℝ :=
  let wd := m.law.ddamage_dd w_np1 w_n e_np1 e_n s_np1 s_n T_np1 T_n t_np1 t_n
  let wde := m.law.ddamage_de w_np1 w_n e_np1 e_n s_np1 s_n T_np1 T_n t_np1 t_n
  let wds := m.law.ddamage_ds w_np1 w_n e_np1 e_n s_np1 s_n T_np1 T_n t_np1 t_n
  let Rd := 1 - wd - (∑ k, wds k * s_np1 k) / (1 - w_np1)
  fun i j => A_prime i j / (1 - w_np1) +
    s_np1 i * ((wde j + (∑ k, wds k * A_prime k j) / (1 - w_np1)) / Rd) /
      (1 - w_np1)

/-- The continuous linear map on candidate-damage and stress perturbations
whose coefficients are a direct damage partial and a stress gradient; the
Frechet derivative shape of a rate law seen as a function of (d, s). -/
noncomputable def pairCLM (a : ℝ) (b : Fin 6 → ℝ) :
    (ℝ × (Fin 6 → ℝ)) →L[ℝ] ℝ :=
  a • (ContinuousLinearMap.fst ℝ ℝ (Fin 6 → ℝ)) +
    ∑ i, b i • ((ContinuousLinearMap.proj i).comp
      (ContinuousLinearMap.snd ℝ ℝ (Fin 6 → ℝ)))

/-- The continuous linear map on damage, stress and strain perturbations
whose coefficients are a damage partial, a stress gradient and a strain
gradient; the Frechet derivative shape of a rate law seen as a function of
(d, s, e). -/
noncomputable def tripleCLM (a : ℝ) (b c : Fin 6 → ℝ) :
    (ℝ × (Fin 6 → ℝ) × (Fin 6 → ℝ)) →L[ℝ] ℝ :=
  a • (ContinuousLinearMap.fst ℝ ℝ ((Fin 6 → ℝ) × (Fin 6 → ℝ))) +
    (∑ i, b i • ((ContinuousLinearMap.proj i).comp
      ((ContinuousLinearMap.fst ℝ (Fin 6 → ℝ) (Fin 6 → ℝ)).comp
        (ContinuousLinearMap.snd ℝ ℝ ((Fin 6 → ℝ) × (Fin 6 → ℝ)))))) +
    (∑ i, c i • ((ContinuousLinearMap.proj i).comp
      ((ContinuousLinearMap.snd ℝ (Fin 6 → ℝ) (Fin 6 → ℝ)).comp
        (ContinuousLinearMap.snd ℝ ℝ ((Fin 6 → ℝ) × (Fin 6 → ℝ))))))

theorem pairCLM_apply (a : ℝ) (b : Fin 6 → ℝ) (p : ℝ × (Fin 6 → ℝ)) :
    pairCLM a b p = a * p.1 + ∑ i, b i * p.2 i := by
  simp [pairCLM, ContinuousLinearMap.sum_apply, smul_eq_mul]

theorem tripleCLM_apply (a : ℝ) (b c : Fin 6 → ℝ)
    (p : ℝ × (Fin 6 → ℝ) × (Fin 6 → ℝ)) :
    tripleCLM a b c p = a * p.1 + (∑ i, b i * p.2.1 i) + ∑ i, c i * p.2.2 i := by
  simp [tripleCLM, ContinuousLinearMap.sum_apply, smul_eq_mul]

/-! Helper facts about the equivalent stress. -/

/-- A uniaxial stress state: the first normal component carries x, all other
components vanish. -/
def uniaxial (x : ℝ) : Fin 6 → ℝ := fun i => if i = 0 then x else 0

theorem se_nonneg (s : Fin 6 → ℝ) : 0 ≤ se s := Real.sqrt_nonneg _

theorem se_uniaxial (x : ℝ) : se (uniaxial x) = |x| := by
  have h : ((uniaxial x 0 - uniaxial x 1) ^ 2 + (uniaxial x 1 - uniaxial x 2) ^ 2 +
      (uniaxial x 2 - uniaxial x 0) ^ 2 +
      6 * ((uniaxial x 3) ^ 2 + (uniaxial x 4) ^ 2 + (uniaxial x 5) ^ 2)) / 2 = x ^ 2 := by
    have h0 : uniaxial x 0 = x := rfl
    have h1 : uniaxial x 1 = 0 := rfl
    have h2 : uniaxial x 2 = 0 := rfl
    have h3 : uniaxial x 3 = 0 := rfl
    have h4 : uniaxial x 4 = 0 := rfl
    have h5 : uniaxial x 5 = 0 := rfl
    rw [h0, h1, h2, h3, h4, h5]
    ring
  rw [se, h, Real.sqrt_sq_eq_abs]

theorem se_uniaxial_of_nonneg {x : ℝ} (hx : 0 ≤ x) : se (uniaxial x) = x := by
  rw [se_uniaxial, abs_of_nonneg hx]

/-- Claim C7: the combined damage model superposes its constituents: the
damage increment of the combination is the sum of the increments of the
constituent laws at the same arguments, and each of the three partial
derivatives is the sum of the corresponding constituent partials; as a
consequence, a combined model built from a single constituent law returns
exactly the damage value and partials of that constituent. -/
theorem combined_damage_superposition :
    ∀ (ms : List ScalarDamageLaw) (d_np1 d_n : ℝ) (e_np1 e_n : Fin 6 → ℝ)
      (s_np1 s_n : Fin 6 → ℝ) (T_np1 T_n t_np1 t_n : ℝ),
      ((CombinedDamageModel_sd ms).damage d_np1 d_n e_np1 e_n s_np1 s_n
          T_np1 T_n t_np1 t_n - d_n =
        (ms.map (fun mi => mi.damage d_np1 d_n e_np1 e_n s_np1 s_n
          T_np1 T_n t_np1 t_n - d_n)).sum) ∧
      ((CombinedDamageModel_sd ms).ddamage_dd d_np1 d_n e_np1 e_n s_np1 s_n
          T_np1 T_n t_np1 t_n =
        (ms.map (fun mi => mi.ddamage_dd d_np1 d_n e_np1 e_n s_np1 s_n
          T_np1 T_n t_np1 t_n)).sum) ∧
      (∀ i, (CombinedDamageModel_sd ms).ddamage_de d_np1 d_n e_np1 e_n s_np1 s_n
          T_np1 T_n t_np1 t_n i =
        (ms.map (fun mi => mi.ddamage_de d_np1 d_n e_np1 e_n s_np1 s_n
          T_np1 T_n t_np1 t_n i)).sum) ∧
      (∀ i, (CombinedDamageModel_sd ms).ddamage_ds d_np1 d_n e_np1 e_n s_np1 s_n
          T_np1 T_n t_np1 t_n i =
        (ms.map (fun mi => mi.ddamage_ds d_np1 d_n e_np1 e_n s_np1 s_n
          T_np1 T_n t_np1 t_n i)).sum) ∧
      (∀ l : ScalarDamageLaw,
        (CombinedDamageModel_sd [l]).damage d_np1 d_n e_np1 e_n s_np1 s_n
            T_np1 T_n t_np1 t_n =
          l.damage d_np1 d_n e_np1 e_n s_np1 s_n T_np1 T_n t_np1 t_n ∧
        (CombinedDamageModel_sd [l]).ddamage_dd d_np1 d_n e_np1 e_n s_np1 s_n
            T_np1 T_n t_np1 t_n =
          l.ddamage_dd d_np1 d_n e_np1 e_n s_np1 s_n T_np1 T_n t_np1 t_n ∧
        (∀ i, (CombinedDamageModel_sd [l]).ddamage_de d_np1 d_n e_np1 e_n s_np1 s_n
            T_np1 T_n t_np1 t_n i =
          l.ddamage_de d_np1 d_n e_np1 e_n s_np1 s_n T_np1 T_n t_np1 t_n i) ∧
        (∀ i, (CombinedDamageModel_sd [l]).ddamage_ds d_np1 d_n e_np1 e_n s_np1 s_n
            T_np1 T_n t_np1 t_n i =
          l.ddamage_ds d_np1 d_n e_np1 e_n s_np1 s_n T_np1 T_n t_np1 t_n i)) := by
  intro ms d_np1 d_n e_np1 e_n s_np1 s_n T_np1 T_n t_np1 t_n
  refine ⟨by simp [CombinedDamageModel_sd], rfl, fun i => rfl, fun i => rfl, fun l => ?_⟩
  refine ⟨?_, ?_, fun i => ?_, fun i => ?_⟩ <;> simp [CombinedDamageModel_sd]

/-- Claim C8: the history count of a damaged model is the base history count
plus the number of damage variables, a scalar damaged model has exactly one
damage variable, and the initialized history vector has exactly that length
(base count plus one for the scalar case). -/
theorem nhist_equals_base_plus_ndamage :
    (∀ g : NEMLDamagedModel_sd,
      g.nhist = g.base_.nhist + g.ndamage ∧
      g.init_hist.length = g.base_.nhist + g.ndamage) ∧
    (∀ m : NEMLScalarDamagedModel_sd,
      m.toDamagedModel.ndamage = 1 ∧
      m.nhist = m.base_.nhist + 1 ∧
      m.init_hist.length = m.base_.nhist + 1) := by
  constructor
  · intro g
    refine ⟨rfl, ?_⟩
    simp [NEMLDamagedModel_sd.init_hist, g.base_.init_hist_length,
      g.init_damage_length]
  · intro m
    refine ⟨rfl, rfl, ?_⟩
    simp [NEMLScalarDamagedModel_sd.init_hist,
      NEMLScalarDamagedModel_sd.toDamagedModel, NEMLDamagedModel_sd.init_hist,
      m.base_.init_hist_length]

/-- Claim C9: init_hist writes the base history initializer into the first
base-nhist entries and the init_damage values into the remaining entries;
for a scalar damaged model the damage slice is the single value zero. -/
theorem init_hist_base_then_damage :
    (∀ g : NEMLDamagedModel_sd,
      g.init_hist.take g.base_.nhist = g.base_.init_hist ∧
      g.init_hist.drop g.base_.nhist = g.init_damage) ∧
    (∀ m : NEMLScalarDamagedModel_sd,
      m.init_hist.take m.base_.nhist = m.base_.init_hist ∧
      m.init_hist.drop m.base_.nhist = [0]) := by
  constructor
  · intro g
    unfold NEMLDamagedModel_sd.init_hist
    rw [← g.base_.init_hist_length]
    exact ⟨List.take_left _ _, List.drop_left _ _⟩
  · intro m
    have hm : m.init_hist = m.base_.init_hist ++ [0] := rfl
    rw [hm, ← m.base_.init_hist_length]
    exact ⟨List.take_left _ _, List.drop_left _ _⟩

/-- Real power at the natural exponent two agrees with the square. -/
theorem rpow_two_eq_sq (x : ℝ) : x ^ (2 : ℝ) = x ^ (2 : ℕ) := by
  rw [show (2 : ℝ) = ((2 : ℕ) : ℝ) by norm_num, Real.rpow_natCast]

/-- A classical creep model with A = 1, xi = 2, phi = 0 at every
temperature, used to evaluate the creep damage formula on concrete data. -/
def ccC4 : ClassicalCreepDamageModel_sd :=
  ⟨fun _ => 1, fun _ => 2, fun _ => 0⟩

/-- Claim C4: the classical creep damage evaluator returns d_n plus the
increment (se / A) ^ xi * (1 - d_np1) ^ (-phi) * (t_np1 - t_n), with the
equivalent stress taken from the stress argument s_np1 passed in and the
parameters A, xi, phi interpolated at T_np1; evaluated concretely, the model
with A = 1, xi = 2, phi = 0 at uniaxial stress 3 over a time step of length 2
yields the increment 18. -/
theorem classical_creep_damage_formula :
    (∀ (m : ClassicalCreepDamageModel_sd) (d_np1 d_n : ℝ)
      (e_np1 e_n s_np1 s_n : Fin 6 → ℝ) (T_np1 T_n t_np1 t_n : ℝ),
      m.damage d_np1 d_n e_np1 e_n s_np1 s_n T_np1 T_n t_np1 t_n =
        d_n + (se s_np1 / m.A_ T_np1) ^ (m.xi_ T_np1) *
          (1 - d_np1) ^ (-(m.phi_ T_np1)) * (t_np1 - t_n)) ∧
    ccC4.damage (1/2) (1/4) 0 0 (uniaxial 3) 0 300 300 5 3 = 1/4 + 18 := by
  constructor
  · intro m d_np1 d_n e_np1 e_n s_np1 s_n T_np1 T_n t_np1 t_n
    rfl
  · show (1/4 : ℝ) + (se (uniaxial 3) / 1) ^ (2 : ℝ) * (1 - 1/2) ^ (-(0:ℝ)) * (5 - 3)
      = 1/4 + 18
    rw [se_uniaxial_of_nonneg (by norm_num : (0:ℝ) ≤ 3), neg_zero, Real.rpow_zero,
      rpow_two_eq_sq]
    norm_num

/-- A power-law model with A = 100, a = 2 at every temperature and an
inelastic strain increment extractor returning 0.001, realizing the scenario
stated in the specification. -/
noncomputable def plC5 : NEMLPowerLawDamagedModel_sd :=
  ⟨fun _ => 100, fun _ => 2, fun _ _ _ _ _ => 1/1000⟩

/-- Claim C5 counterexample: in the scenario of the claim (A = 100, a = 2,
zero initial damage, uniaxial equivalent stress 50, inelastic strain
increment 0.001 over one step) the damage increment equals
100 * 50 ^ 2 * 0.001 = 250, which is not 2.5 as the claim computes. -/
theorem power_law_scenario_not_two_point_five :
    plC5.damage 0 0 0 0 (uniaxial 50) 0 300 300 1 0 - 0 = 250 ∧
      (250 : ℝ) ≠ 5/2 := by
  constructor
  · show (0:ℝ) + (100 * se (uniaxial 50) ^ (2:ℝ)) * (1/1000) - 0 = 250
    rw [se_uniaxial_of_nonneg (by norm_num : (0:ℝ) ≤ 50), rpow_two_eq_sq]
    norm_num
  · norm_num

/-- Claim C5 (amended): the power-law damage evaluator returns d_n plus the
increment f * dep with rate function f = A * se ^ a (A and a interpolated at
T_np1, se the equivalent stress of the stress argument) and dep the inelastic
strain increment extracted from the stress and strain history; in the
scenario with A = 100, a = 2, equivalent stress 50 and strain increment 0.001
over one step, the increment equals 100 * 50 ^ 2 * 0.001 = 250. -/
theorem power_law_damage_formula :
    (∀ (m : NEMLPowerLawDamagedModel_sd) (d_np1 d_n : ℝ)
      (e_np1 e_n s_np1 s_n : Fin 6 → ℝ) (T_np1 T_n t_np1 t_n : ℝ),
      m.damage d_np1 d_n e_np1 e_n s_np1 s_n T_np1 T_n t_np1 t_n =
        d_n + (m.A_ T_np1 * se s_np1 ^ (m.a_ T_np1)) *
          m.dep s_np1 s_n e_np1 e_n T_np1) ∧
    plC5.damage 0 0 0 0 (uniaxial 50) 0 300 300 1 0 = 0 + 250 := by
  constructor
  · intro m d_np1 d_n e_np1 e_n s_np1 s_n T_np1 T_n t_np1 t_n
    rfl
  · show (0:ℝ) + (100 * se (uniaxial 50) ^ (2:ℝ)) * (1/1000) = 0 + 250
    rw [se_uniaxial_of_nonneg (by norm_num : (0:ℝ) ≤ 50), rpow_two_eq_sq]
    norm_num

/-- An exponential-work model with W0 = 2, k0 = 0, af = 2 at every
temperature and an inelastic strain increment extractor returning one half,
used to evaluate the work-damage formula on concrete data. -/
noncomputable def ewC6 : NEMLExponentialWorkDamagedModel_sd :=
  ⟨fun _ => 2, fun _ => 0, fun _ => 2, fun _ _ _ _ _ => 1/2⟩

/-- Claim C6: the exponential-work damage evaluator returns d_n plus the
increment f * dep with rate function f = (d_np1 + k0) ^ af / W0 * se (W0, k0
and af interpolated at T_np1, se the equivalent stress of the stress
argument), sharing the strain-driven structure of the power law; evaluated
concretely, the model with W0 = 2, k0 = 0, af = 2 at damage 3, uniaxial
stress 4 and strain increment one half yields the increment 9. -/
theorem exp_work_damage_formula :
    (∀ (m : NEMLExponentialWorkDamagedModel_sd) (d_np1 d_n : ℝ)
      (e_np1 e_n s_np1 s_n : Fin 6 → ℝ) (T_np1 T_n t_np1 t_n : ℝ),
      m.damage d_np1 d_n e_np1 e_n s_np1 s_n T_np1 T_n t_np1 t_n =
        d_n + ((d_np1 + m.k0_ T_np1) ^ (m.af_ T_np1) / m.W0_ T_np1 * se s_np1) *
          m.dep s_np1 s_n e_np1 e_n T_np1) ∧
    ewC6.damage 3 1 0 0 (uniaxial 4) 0 300 300 1 0 = 1 + 9 := by
  constructor
  · intro m d_np1 d_n e_np1 e_n s_np1 s_n T_np1 T_n t_np1 t_n
    rfl
  · show (1:ℝ) + ((3 + 0) ^ (2:ℝ) / 2 * se (uniaxial 4)) * (1/2) = 1 + 9
    rw [se_uniaxial_of_nonneg (by norm_num : (0:ℝ) ≤ 4), rpow_two_eq_sq]
    norm_num

/-- Claim C10: for each concrete damage-rate law the damage increment of the
step is nonnegative on valid inputs: damage value in the unit interval,
non-decreasing time, nonnegative interpolated material parameters and a
nonnegative inelastic strain increment. -/
theorem damage_increment_nonneg
    (cm : ClassicalCreepDamageModel_sd) (pm : NEMLPowerLawDamagedModel_sd)
    (em : NEMLExponentialWorkDamagedModel_sd)
    (d_np1 d_n : ℝ) (e_np1 e_n s_np1 s_n : Fin 6 → ℝ)
    (T_np1 T_n t_np1 t_n : ℝ)
    (hd0 : 0 ≤ d_np1) (hd1 : d_np1 < 1) (ht : t_n ≤ t_np1)
    (hcA : 0 ≤ cm.A_ T_np1) (hpA : 0 ≤ pm.A_ T_np1)
    (hek : 0 ≤ em.k0_ T_np1) (heW : 0 ≤ em.W0_ T_np1)
    (hpdep : 0 ≤ pm.dep s_np1 s_n e_np1 e_n T_np1)
    (hedep : 0 ≤ em.dep s_np1 s_n e_np1 e_n T_np1) :
    0 ≤ cm.damage d_np1 d_n e_np1 e_n s_np1 s_n T_np1 T_n t_np1 t_n - d_n ∧
    0 ≤ pm.damage d_np1 d_n e_np1 e_n s_np1 s_n T_np1 T_n t_np1 t_n - d_n ∧
    0 ≤ em.damage d_np1 d_n e_np1 e_n s_np1 s_n T_np1 T_n t_np1 t_n - d_n := by
  refine ⟨?_, ?_, ?_⟩
  · have h : cm.damage d_np1 d_n e_np1 e_n s_np1 s_n T_np1 T_n t_np1 t_n - d_n =
        (se s_np1 / cm.A_ T_np1) ^ (cm.xi_ T_np1) *
          (1 - d_np1) ^ (-(cm.phi_ T_np1)) * (t_np1 - t_n) := by
      unfold ClassicalCreepDamageModel_sd.damage
      ring
    rw [h]
    refine mul_nonneg (mul_nonneg ?_ ?_) (by linarith)
    · exact Real.rpow_nonneg (div_nonneg (se_nonneg _) hcA) _
    · exact Real.rpow_nonneg (by linarith) _
  · have h : pm.damage d_np1 d_n e_np1 e_n s_np1 s_n T_np1 T_n t_np1 t_n - d_n =
        (pm.A_ T_np1 * se s_np1 ^ (pm.a_ T_np1)) *
          pm.dep s_np1 s_n e_np1 e_n T_np1 := by
      unfold NEMLPowerLawDamagedModel_sd.damage
        NEMLPowerLawDamagedModel_sd.toStandard
        NEMLStandardScalarDamagedModel_sd.damage NEMLPowerLawDamagedModel_sd.f
      ring
    rw [h]
    exact mul_nonneg (mul_nonneg hpA (Real.rpow_nonneg (se_nonneg _) _)) hpdep
  · have h : em.damage d_np1 d_n e_np1 e_n s_np1 s_n T_np1 T_n t_np1 t_n - d_n =
        ((d_np1 + em.k0_ T_np1) ^ (em.af_ T_np1) / em.W0_ T_np1 * se s_np1) *
          em.dep s_np1 s_n e_np1 e_n T_np1 := by
      unfold NEMLExponentialWorkDamagedModel_sd.damage
        NEMLExponentialWorkDamagedModel_sd.toStandard
        NEMLStandardScalarDamagedModel_sd.damage NEMLExponentialWorkDamagedModel_sd.f
      ring
    rw [h]
    refine mul_nonneg (mul_nonneg (div_nonneg ?_ heW) (se_nonneg _)) hedep
    exact Real.rpow_nonneg (by linarith) _

/-- A classical creep instance with all parameters one, for the monotonicity
witness. -/
def cmC10 : ClassicalCreepDamageModel_sd := ⟨fun _ => 1, fun _ => 1, fun _ => 1⟩

/-- A power-law instance with all parameters one and zero strain increment,
for the monotonicity witness. -/
def pmC10 : NEMLPowerLawDamagedModel_sd := ⟨fun _ => 1, fun _ => 1, fun _ _ _ _ _ => 0⟩

/-- An exponential-work instance with all parameters one and zero strain
increment, for the monotonicity witness. -/
def emC10 : NEMLExponentialWorkDamagedModel_sd :=
  ⟨fun _ => 1, fun _ => 1, fun _ => 1, fun _ _ _ _ _ => 0⟩

theorem damage_increment_nonneg_witness :
    (0:ℝ) ≤ 0 ∧ (0:ℝ) < 1 ∧
    (0 ≤ cmC10.damage 0 0 0 0 0 0 0 0 1 0 - 0 ∧
     0 ≤ pmC10.damage 0 0 0 0 0 0 0 0 1 0 - 0 ∧
     0 ≤ emC10.damage 0 0 0 0 0 0 0 0 1 0 - 0) :=
  ⟨le_refl 0, by norm_num,
    damage_increment_nonneg cmC10 pmC10 emC10 0 0 0 0 0 0 0 0 1 0
      (le_refl 0) (by norm_num) (by norm_num) (by norm_num [cmC10])
      (by norm_num [pmC10]) (by norm_num [emC10]) (by norm_num [emC10])
      (le_refl 0) (le_refl 0)⟩

/-- The generic bounded Newton loop succeeds only at a point whose absolute
residual is below the tolerance, that point is one of the iterates within the
cap, and when every iterate within the cap misses the tolerance the loop
reports failure. -/
theorem newton_solve_spec {α : Type} [LinearOrderedField α]
    (RJfun : α → α × α) (tol : α) :
    ∀ (miter : ℕ) (x0 : α),
      (∀ d, newton_solve RJfun tol miter x0 = some d →
        |(RJfun d).1| < tol ∧
        ∃ k, k ≤ miter ∧ d = (newton_iter RJfun)^[k] x0) ∧
      ((∀ k, k ≤ miter → ¬ |(RJfun ((newton_iter RJfun)^[k] x0)).1| < tol) →
        newton_solve RJfun tol miter x0 = none) := by
  intro miter
  induction miter with
  | zero =>
    intro x0
    constructor
    · intro d hd
      by_cases h : |(RJfun x0).1| < tol
      · simp only [newton_solve, if_pos h, Option.some.injEq] at hd
        subst hd
        exact ⟨h, 0, le_refl 0, rfl⟩
      · simp only [newton_solve, if_neg h] at hd
        exact Option.noConfusion hd
    · intro hall
      have h0 := hall 0 (le_refl 0)
      simp only [Function.iterate_zero, id] at h0
      simp only [newton_solve, if_neg h0]
  | succ n ih =>
    intro x0
    constructor
    · intro d hd
      by_cases h : |(RJfun x0).1| < tol
      · simp only [newton_solve, if_pos h, Option.some.injEq] at hd
        subst hd
        exact ⟨h, 0, Nat.zero_le _, rfl⟩
      · simp only [newton_solve, if_neg h] at hd
        obtain ⟨habs, k, hk, hiter⟩ := (ih (newton_iter RJfun x0)).1 d hd
        refine ⟨habs, k + 1, Nat.succ_le_succ hk, ?_⟩
        rw [Function.iterate_succ_apply]
        exact hiter
    · intro hall
      have h0 := hall 0 (Nat.zero_le _)
      simp only [Function.iterate_zero, id] at h0
      simp only [newton_solve, if_neg h0]
      refine (ih (newton_iter RJfun x0)).2 ?_
      intro k hk
      have := hall (k + 1) (Nat.succ_le_succ hk)
      rw [Function.iterate_succ_apply] at this
      exact this

/-- Claim C3: update_sd succeeds only when the Newton iteration, seeded by
init_x and bounded by the iteration cap miter, reaches an iterate whose
absolute residual is below the tolerance tol (the returned damage value is
that iterate); when every iterate within the cap misses the tolerance, the
update reports failure and returns no best-effort value. -/
theorem update_sd_newton_convergence (m : NEMLScalarDamagedModel_sd)
    (ts : SDTrialState) :
    (∀ d, m.update_sd ts = some d →
      |(m.RJ ts d).1| < m.tol_ ∧
      ∃ k, k ≤ m.miter_ ∧
        d = (newton_iter (fun x => m.RJ ts x))^[k] (m.init_x ts)) ∧
    ((∀ k, k ≤ m.miter_ →
        ¬ |(m.RJ ts ((newton_iter (fun x => m.RJ ts x))^[k] (m.init_x ts))).1|
          < m.tol_) →
      m.update_sd ts = none) :=
  newton_solve_spec (fun x => m.RJ ts x) m.tol_ m.miter_ (m.init_x ts)

/-- The rate law of the convergence witness: unit increment with vanishing
partials, so the residual at candidate x is x - w_n - 1 and the Jacobian is
one. -/
def lawC3 : ScalarDamageLaw :=
  { damage := fun _ d_n _ _ _ _ _ _ _ _ => d_n + 1
    ddamage_dd := fun _ _ _ _ _ _ _ _ _ _ => 0
    ddamage_de := fun _ _ _ _ _ _ _ _ _ _ _ => 0
    ddamage_ds := fun _ _ _ _ _ _ _ _ _ _ _ => 0 }

/-- A trivial base model with empty history and vanishing stress update, for
the convergence witness. -/
def baseC3 : BaseModel :=
  { nhist := 0
    init_hist := []
    init_hist_length := rfl
    update_stress := fun _ _ _ _ _ _ _ _ => fun _ => 0 }

/-- The convergence witness model: unit-increment law, tolerance one half,
iteration cap one. -/
noncomputable def mC3 : NEMLScalarDamagedModel_sd :=
  { base_ := baseC3, law := lawC3, tol_ := 1/2, miter_ := 1, verbose_ := false }

/-- The all-zero trial state for the convergence witness. -/
def tsC3 : SDTrialState :=
  { e_np1 := 0, e_n := 0, T_np1 := 0, T_n := 0, t_np1 := 0, t_n := 0
    u_n := 0, p_n := 0, s_n := 0, w_n := 0, h_n := [] }

theorem rj_mC3 (x : ℝ) : mC3.RJ tsC3 x = (x - 1, 1) := by
  unfold NEMLScalarDamagedModel_sd.RJ NEMLScalarDamagedModel_sd.base_stress
  simp [mC3, tsC3, lawC3, baseC3]

theorem update_sd_mC3 : mC3.update_sd tsC3 = some 1 := by
  have hiter : newton_iter (fun x => mC3.RJ tsC3 x) 0 = 1 := by
    unfold newton_iter
    rw [show ((fun x => mC3.RJ tsC3 x) (0:ℝ)) = ((0:ℝ) - 1, (1:ℝ)) from rj_mC3 0]
    norm_num
  have htol : mC3.tol_ = 1/2 := rfl
  have hmiter : mC3.miter_ = 1 := rfl
  have hinit : mC3.init_x tsC3 = 0 := rfl
  unfold NEMLScalarDamagedModel_sd.update_sd
  rw [htol, hmiter, hinit]
  have hcond0 : ¬ |((fun x => mC3.RJ tsC3 x) (0:ℝ)).1| < 1/2 := by
    rw [show ((fun x => mC3.RJ tsC3 x) (0:ℝ)).1 = (0:ℝ) - 1 from
      congrArg Prod.fst (rj_mC3 0)]
    rw [show |(0:ℝ) - 1| = 1 from by rw [abs_sub_comm]; norm_num]
    norm_num
  have hcond1 : |((fun x => mC3.RJ tsC3 x) (1:ℝ)).1| < 1/2 := by
    rw [show ((fun x => mC3.RJ tsC3 x) (1:ℝ)).1 = (1:ℝ) - 1 from
      congrArg Prod.fst (rj_mC3 1)]
    norm_num
  simp only [newton_solve, if_neg hcond0, hiter, if_pos hcond1]

theorem update_sd_newton_convergence_witness :
    |(mC3.RJ tsC3 1).1| < mC3.tol_ ∧
    ∃ k, k ≤ mC3.miter_ ∧
      (1:ℝ) = (newton_iter (fun x => mC3.RJ tsC3 x))^[k] (mC3.init_x tsC3) :=
  (update_sd_newton_convergence mC3 tsC3).1 1 update_sd_mC3

/-- Claim C1: for every candidate damage value x and every trial state, the
residual returned by RJ is x - d_n - increment, where the increment is the
rate law evaluated at the damage-effective stress (the base-model undamaged
stress rescaled by one over 1 - x); and, provided the rate law is
differentiable at that point with its declared partials, the Jacobian
returned by RJ is the exact derivative of the returned residual with respect
to the candidate x, which combines the direct ddamage_dd dependence with the
indirect ddamage_ds dependence through the effective stress. -/
theorem RJ_residual_and_jacobian (m : NEMLScalarDamagedModel_sd)
    (ts : SDTrialState) (x : ℝ) (hx : 1 - x ≠ 0)
    (hW : HasFDerivAt
      (fun p : ℝ × (Fin 6 → ℝ) =>
        m.law.damage p.1 ts.w_n ts.e_np1 ts.e_n p.2 ts.s_n ts.T_np1 ts.T_n
          ts.t_np1 ts.t_n)
      (pairCLM
        (m.law.ddamage_dd x ts.w_n ts.e_np1 ts.e_n
          (fun i => m.base_stress ts i / (1 - x)) ts.s_n ts.T_np1 ts.T_n
          ts.t_np1 ts.t_n)
        (m.law.ddamage_ds x ts.w_n ts.e_np1 ts.e_n
          (fun i => m.base_stress ts i / (1 - x)) ts.s_n ts.T_np1 ts.T_n
          ts.t_np1 ts.t_n))
      (x, fun i => m.base_stress ts i / (1 - x))) :
    (m.RJ ts x).1 = x - ts.w_n -
      (m.law.damage x ts.w_n ts.e_np1 ts.e_n
        (fun i => m.base_stress ts i / (1 - x)) ts.s_n ts.T_np1 ts.T_n
        ts.t_np1 ts.t_n - ts.w_n) ∧
    HasDerivAt (fun y => (m.RJ ts y).1) ((m.RJ ts x).2) x := by
  constructor
  · have h1 : (m.RJ ts x).1 = x - m.law.damage x ts.w_n ts.e_np1 ts.e_n
        (fun i => m.base_stress ts i / (1 - x)) ts.s_n ts.T_np1 ts.T_n
        ts.t_np1 ts.t_n := rfl
    rw [h1]
    ring
  · have hseff : ∀ i : Fin 6, HasDerivAt
        (fun y : ℝ => m.base_stress ts i / (1 - y))
        (m.base_stress ts i / (1 - x) ^ 2) x := by
      intro i
      have h := (hasDerivAt_const x (m.base_stress ts i)).div
        ((hasDerivAt_id x).const_sub 1) hx
      simp only [id_eq] at h
      convert h using 1
      ring
    have hpi : HasDerivAt
        (fun y : ℝ => (fun i => m.base_stress ts i / (1 - y) : Fin 6 → ℝ))
        (fun i => m.base_stress ts i / (1 - x) ^ 2) x := hasDerivAt_pi.2 hseff
    have hpair : HasDerivAt
        (fun y : ℝ =>
          ((y, fun i => m.base_stress ts i / (1 - y)) : ℝ × (Fin 6 → ℝ)))
        ((1 : ℝ), fun i => m.base_stress ts i / (1 - x) ^ 2) x :=
      (hasDerivAt_id x).prod hpi
    have hcomp := hW.comp_hasDerivAt x hpair
    simp only [pairCLM_apply] at hcomp
    have hval : m.law.ddamage_dd x ts.w_n ts.e_np1 ts.e_n
          (fun i => m.base_stress ts i / (1 - x)) ts.s_n ts.T_np1 ts.T_n
          ts.t_np1 ts.t_n * 1 +
        ∑ i, m.law.ddamage_ds x ts.w_n ts.e_np1 ts.e_n
          (fun i => m.base_stress ts i / (1 - x)) ts.s_n ts.T_np1 ts.T_n
          ts.t_np1 ts.t_n i * (m.base_stress ts i / (1 - x) ^ 2) =
        m.law.ddamage_dd x ts.w_n ts.e_np1 ts.e_n
          (fun i => m.base_stress ts i / (1 - x)) ts.s_n ts.T_np1 ts.T_n
          ts.t_np1 ts.t_n +
        ∑ i, m.law.ddamage_ds x ts.w_n ts.e_np1 ts.e_n
          (fun i => m.base_stress ts i / (1 - x)) ts.s_n ts.T_np1 ts.T_n
          ts.t_np1 ts.t_n i * (m.base_stress ts i / (1 - x) ^ 2) := by
      ring
    rw [hval] at hcomp
    exact (hasDerivAt_id x).sub hcomp

/-- The rate law of the RJ witness: zero increment (the evaluator returns
d_n) with vanishing partials. -/
def lawC1 : ScalarDamageLaw :=
  { damage := fun _ d_n _ _ _ _ _ _ _ _ => d_n
    ddamage_dd := fun _ _ _ _ _ _ _ _ _ _ => 0
    ddamage_de := fun _ _ _ _ _ _ _ _ _ _ _ => 0
    ddamage_ds := fun _ _ _ _ _ _ _ _ _ _ _ => 0 }

/-- A trivial base model with empty history and vanishing stress update, for
the RJ witness. -/
def baseC1 : BaseModel :=
  { nhist := 0
    init_hist := []
    init_hist_length := rfl
    update_stress := fun _ _ _ _ _ _ _ _ => fun _ => 0 }

/-- The RJ witness model: zero-increment law over the trivial base. -/
noncomputable def mC1 : NEMLScalarDamagedModel_sd :=
  { base_ := baseC1, law := lawC1, tol_ := 1, miter_ := 1, verbose_ := false }

/-- The all-zero trial state for the RJ witness. -/
def tsC1 : SDTrialState :=
  { e_np1 := 0, e_n := 0, T_np1 := 0, T_n := 0, t_np1 := 0, t_n := 0
    u_n := 0, p_n := 0, s_n := 0, w_n := 0, h_n := [] }

theorem RJ_residual_and_jacobian_witness :
    ((1 : ℝ) - 0 ≠ 0) ∧
    ((mC1.RJ tsC1 0).1 = 0 - tsC1.w_n -
      (mC1.law.damage 0 tsC1.w_n tsC1.e_np1 tsC1.e_n
        (fun i => mC1.base_stress tsC1 i / (1 - 0)) tsC1.s_n tsC1.T_np1
        tsC1.T_n tsC1.t_np1 tsC1.t_n - tsC1.w_n) ∧
    HasDerivAt (fun y => (mC1.RJ tsC1 y).1) ((mC1.RJ tsC1 0).2) 0) := by
  refine ⟨by norm_num, RJ_residual_and_jacobian mC1 tsC1 0 (by norm_num) ?_⟩
  have hz : pairCLM
      (mC1.law.ddamage_dd 0 tsC1.w_n tsC1.e_np1 tsC1.e_n
        (fun i => mC1.base_stress tsC1 i / (1 - 0)) tsC1.s_n tsC1.T_np1
        tsC1.T_n tsC1.t_np1 tsC1.t_n)
      (mC1.law.ddamage_ds 0 tsC1.w_n tsC1.e_np1 tsC1.e_n
        (fun i => mC1.base_stress tsC1 i / (1 - 0)) tsC1.s_n tsC1.T_np1
        tsC1.T_n tsC1.t_np1 tsC1.t_n) = 0 := by
    apply ContinuousLinearMap.ext
    intro p
    rw [pairCLM_apply]
    show (0 : ℝ) * p.1 + (∑ i : Fin 6, (0 : ℝ) * p.2 i) = 0
    simp
  rw [hz]
  exact hasFDerivAt_const tsC1.w_n _

set_option maxHeartbeats 1600000 in
/-- Claim C2: after convergence, the tangent assembled by tangent_ is the
consistent algorithmic tangent of the damaged response.  Along any strain
direction v, let sp be the base-model stress response with directional
derivative given by the base tangent A_prime, let dmg be the converged damage
as a function of strain (a root of the residual along the path), and let the
rate law be differentiable with its declared partials.  Then the directional
derivative of each component of the damaged stress response
sp / (1 - dmg) equals the tangent_ matrix applied to v: the total damage
sensitivity solved from the linearized residual equation, propagated through
the effective-stress scaling and combined with A_prime, not merely a scalar
rescaling of A_prime. -/
theorem tangent_consistent (m : NEMLScalarDamagedModel_sd)
    (d_n : ℝ) (e_n s_n : Fin 6 → ℝ) (T1 T0 u1 u0 : ℝ)
    (sp : (Fin 6 → ℝ) → Fin 6 → ℝ) (dmg : (Fin 6 → ℝ) → ℝ)
    (ε0 v : Fin 6 → ℝ) (Ap : Fin 6 → Fin 6 → ℝ) (Dv : ℝ)
    (hne : 1 - dmg ε0 ≠ 0)
    (hsp : ∀ i, HasDerivAt (fun t : ℝ => sp (ε0 + t • v) i)
      (∑ j, Ap i j * v j) 0)
    (hdmg : HasDerivAt (fun t : ℝ => dmg (ε0 + t • v)) Dv 0)
    (hW : HasFDerivAt
      (fun p : ℝ × (Fin 6 → ℝ) × (Fin 6 → ℝ) =>
        m.law.damage p.1 d_n p.2.2 e_n p.2.1 s_n T1 T0 u1 u0)
      (tripleCLM
        (m.law.ddamage_dd (dmg ε0) d_n ε0 e_n
          (fun k => sp ε0 k / (1 - dmg ε0)) s_n T1 T0 u1 u0)
        (m.law.ddamage_ds (dmg ε0) d_n ε0 e_n
          (fun k => sp ε0 k / (1 - dmg ε0)) s_n T1 T0 u1 u0)
        (m.law.ddamage_de (dmg ε0) d_n ε0 e_n
          (fun k => sp ε0 k / (1 - dmg ε0)) s_n T1 T0 u1 u0))
      (dmg ε0, (fun k => sp ε0 k / (1 - dmg ε0)), ε0))
    (hroot : ∀ t : ℝ, dmg (ε0 + t • v) =
      m.law.damage (dmg (ε0 + t • v)) d_n (ε0 + t • v) e_n
        (fun k => sp (ε0 + t • v) k / (1 - dmg (ε0 + t • v))) s_n T1 T0 u1 u0)
    (hRd : 1 - m.law.ddamage_dd (dmg ε0) d_n ε0 e_n
        (fun k => sp ε0 k / (1 - dmg ε0)) s_n T1 T0 u1 u0 -
      (∑ k, m.law.ddamage_ds (dmg ε0) d_n ε0 e_n
          (fun k => sp ε0 k / (1 - dmg ε0)) s_n T1 T0 u1 u0 k *
        (sp ε0 k / (1 - dmg ε0))) / (1 - dmg ε0) ≠ 0) :
    ∀ i, HasDerivAt
      (fun t : ℝ => sp (ε0 + t • v) i / (1 - dmg (ε0 + t • v)))
      (∑ j, m.tangent_ ε0 e_n (fun k => sp ε0 k / (1 - dmg ε0)) s_n T1 T0 u1 u0
        (dmg ε0) d_n Ap i j * v j) 0 := by
  intro i
  simp only [NEMLScalarDamagedModel_sd.tangent_]
  set wd : ℝ := m.law.ddamage_dd (dmg ε0) d_n ε0 e_n
    (fun k => sp ε0 k / (1 - dmg ε0)) s_n T1 T0 u1 u0 with hwddef
  set wds : Fin 6 → ℝ := m.law.ddamage_ds (dmg ε0) d_n ε0 e_n
    (fun k => sp ε0 k / (1 - dmg ε0)) s_n T1 T0 u1 u0 with hwdsdef
  set wde : Fin 6 → ℝ := m.law.ddamage_de (dmg ε0) d_n ε0 e_n
    (fun k => sp ε0 k / (1 - dmg ε0)) s_n T1 T0 u1 u0 with hwdedef
  have hp0 : ε0 + (0:ℝ) • v = ε0 := by simp
  have hpath : HasDerivAt (fun t : ℝ => ε0 + t • v) v 0 := by
    have h1 : HasDerivAt (fun t : ℝ => t • v) ((1:ℝ) • v) 0 :=
      (hasDerivAt_id 0).smul_const v
    have h2 := h1.const_add ε0
    simpa using h2
  have hden : HasDerivAt (fun t : ℝ => 1 - dmg (ε0 + t • v)) (-Dv) 0 :=
    hdmg.const_sub 1
  have hne0 : 1 - dmg (ε0 + (0:ℝ) • v) ≠ 0 := by rw [hp0]; exact hne
  have hseff : ∀ k, HasDerivAt
      (fun t : ℝ => sp (ε0 + t • v) k / (1 - dmg (ε0 + t • v)))
      ((∑ j, Ap k j * v j) / (1 - dmg ε0) +
        sp ε0 k * Dv / (1 - dmg ε0) ^ 2) 0 := by
    intro k
    have h := (hsp k).div hden hne0
    rw [hp0] at h
    convert h using 1
    field_simp
    ring
  have hseffPi : HasDerivAt
      (fun t : ℝ =>
        (fun k => sp (ε0 + t • v) k / (1 - dmg (ε0 + t • v)) : Fin 6 → ℝ))
      (fun k => (∑ j, Ap k j * v j) / (1 - dmg ε0) +
        sp ε0 k * Dv / (1 - dmg ε0) ^ 2) 0 :=
    hasDerivAt_pi.2 hseff
  have htriple : HasDerivAt
      (fun t : ℝ => ((dmg (ε0 + t • v),
        (fun k => sp (ε0 + t • v) k / (1 - dmg (ε0 + t • v))),
        ε0 + t • v) : ℝ × (Fin 6 → ℝ) × (Fin 6 → ℝ)))
      ((Dv, (fun k => (∑ j, Ap k j * v j) / (1 - dmg ε0) +
        sp ε0 k * Dv / (1 - dmg ε0) ^ 2), v)) 0 :=
    hdmg.prod (hseffPi.prod hpath)
  have hcomp : HasDerivAt
      (fun t : ℝ => m.law.damage (dmg (ε0 + t • v)) d_n (ε0 + t • v) e_n
        (fun k => sp (ε0 + t • v) k / (1 - dmg (ε0 + t • v))) s_n T1 T0 u1 u0)
      (tripleCLM wd wds wde
        ((Dv, (fun k => (∑ j, Ap k j * v j) / (1 - dmg ε0) +
          sp ε0 k * Dv / (1 - dmg ε0) ^ 2), v))) 0 :=
    hW.comp_hasDerivAt_of_eq 0 htriple (by simp only [hp0])
  have hfun0 : (fun t : ℝ => dmg (ε0 + t • v) -
      m.law.damage (dmg (ε0 + t • v)) d_n (ε0 + t • v) e_n
        (fun k => sp (ε0 + t • v) k / (1 - dmg (ε0 + t • v))) s_n T1 T0 u1 u0) =
      fun _ : ℝ => (0:ℝ) := funext fun t => sub_eq_zero_of_eq (hroot t)
  have hzero := hdmg.sub hcomp
  rw [hfun0] at hzero
  have hkey : Dv - tripleCLM wd wds wde
      ((Dv, (fun k => (∑ j, Ap k j * v j) / (1 - dmg ε0) +
        sp ε0 k * Dv / (1 - dmg ε0) ^ 2), v)) = 0 :=
    hzero.unique (hasDerivAt_const 0 0)
  simp only [tripleCLM_apply] at hkey
  have hDvEq : Dv = ((∑ j, wde j * v j) +
      (∑ k, wds k * (∑ j, Ap k j * v j)) / (1 - dmg ε0)) /
      (1 - wd - (∑ k, wds k * (sp ε0 k / (1 - dmg ε0))) / (1 - dmg ε0)) := by
    rw [eq_div_iff hRd]
    simp only [Fin.sum_univ_six] at hkey ⊢
    simp only [div_eq_mul_inv, pow_two, mul_inv] at hkey ⊢
    linear_combination hkey
  have hfs := hseff i
  rw [hDvEq] at hfs
  convert hfs using 1
  simp only [Fin.sum_univ_six]
  simp only [div_eq_mul_inv, pow_two, mul_inv]
  ring

/-- The rate law of the tangent witness: zero increment with vanishing
partials. -/
def lawC2 : ScalarDamageLaw :=
  { damage := fun _ d_n _ _ _ _ _ _ _ _ => d_n
    ddamage_dd := fun _ _ _ _ _ _ _ _ _ _ => 0
    ddamage_de := fun _ _ _ _ _ _ _ _ _ _ _ => 0
    ddamage_ds := fun _ _ _ _ _ _ _ _ _ _ _ => 0 }

/-- A trivial base model for the tangent witness. -/
def baseC2 : BaseModel :=
  { nhist := 0
    init_hist := []
    init_hist_length := rfl
    update_stress := fun _ _ _ _ _ _ _ _ => fun _ => 0 }

/-- The tangent witness model. -/
noncomputable def mC2 : NEMLScalarDamagedModel_sd :=
  { base_ := baseC2, law := lawC2, tol_ := 1, miter_ := 1, verbose_ := false }

/-- The identity base stress response of the tangent witness. -/
def spC2 : (Fin 6 → ℝ) → Fin 6 → ℝ := fun e => e

/-- The identically zero converged damage of the tangent witness. -/
def dmgC2 : (Fin 6 → ℝ) → ℝ := fun _ => 0

/-- The all-ones strain direction of the tangent witness. -/
def vC2 : Fin 6 → ℝ := fun _ => 1

/-- The identity base tangent of the tangent witness. -/
def ApC2 : Fin 6 → Fin 6 → ℝ := fun i j => if i = j then 1 else 0

theorem tangent_consistent_witness :
    (1 - dmgC2 (0 : Fin 6 → ℝ) ≠ 0) ∧
    ∀ i, HasDerivAt
      (fun t : ℝ => spC2 ((0 : Fin 6 → ℝ) + t • vC2) i /
        (1 - dmgC2 ((0 : Fin 6 → ℝ) + t • vC2)))
      (∑ j, mC2.tangent_ (0 : Fin 6 → ℝ) (0 : Fin 6 → ℝ)
        (fun k => spC2 (0 : Fin 6 → ℝ) k / (1 - dmgC2 (0 : Fin 6 → ℝ)))
        (0 : Fin 6 → ℝ) 0 0 0 0 (dmgC2 (0 : Fin 6 → ℝ)) 0 ApC2 i j * vC2 j)
      0 := by
  have hne : 1 - dmgC2 (0 : Fin 6 → ℝ) ≠ 0 := by norm_num [dmgC2]
  refine ⟨hne, tangent_consistent mC2 (0 : ℝ) (0 : Fin 6 → ℝ) (0 : Fin 6 → ℝ)
    0 0 0 0 spC2 dmgC2 (0 : Fin 6 → ℝ) vC2 ApC2 0 hne ?_ ?_ ?_ ?_ ?_⟩
  · intro i
    have hval : (∑ j, ApC2 i j * vC2 j) = 1 := by
      fin_cases i <;> simp [ApC2, vC2, Fin.sum_univ_six]
    rw [hval]
    have h0 : HasDerivAt (fun t : ℝ => (0:ℝ) + t * 1) (1 * 1) 0 :=
      ((hasDerivAt_id 0).mul_const 1).const_add 0
    simpa only [one_mul, id_eq] using h0
  · exact hasDerivAt_const 0 0
  · have hz : tripleCLM
        (mC2.law.ddamage_dd (dmgC2 0) 0 0 0
          (fun k => spC2 0 k / (1 - dmgC2 0)) 0 0 0 0 0)
        (mC2.law.ddamage_ds (dmgC2 0) 0 0 0
          (fun k => spC2 0 k / (1 - dmgC2 0)) 0 0 0 0 0)
        (mC2.law.ddamage_de (dmgC2 0) 0 0 0
          (fun k => spC2 0 k / (1 - dmgC2 0)) 0 0 0 0 0) = 0 := by
      apply ContinuousLinearMap.ext
      intro p
      rw [tripleCLM_apply]
      simp [mC2, lawC2]
    rw [hz]
    exact hasFDerivAt_const 0 _
  · intro t
    rfl
  · norm_num [mC2, lawC2]

end neml
